import Mathlib

/-!
Shallow embedding of the WorkZen task-orchestration core:
`core/services/task_engine.py` (TaskPlanner.plan_objective, TaskExecutor.run_plan,
TaskExecutor._execute_single_task), `agents/model_router.py` (async_retry),
`agents/orchestrator/task_tracker.py` (TaskTracker), and
`core/services/reminder_service.py` (ReminderService).

Machine state (the Django TaskEntity table, the in-memory tracker table) is
passed explicitly; Python exceptions are modelled with `Except`; external
collaborators (the LLM planner output, the agent dispatch call, croniter,
notification callbacks) are modelled as explicit oracle arguments.
-/

/-- Status enum of `TaskEntity.status` in `core/models.py`:
`todo | in_progress | done | cancelled`. -/
inductive GStatus
  | todo
  | in_progress
  | done
  | cancelled
deriving DecidableEq, Repr

/-- A `TaskEntity` status is terminal when it is `done` or `cancelled`
(the completion test in `TaskExecutor.run_plan`:
`t.status not in ('done', 'cancelled')` selects the incomplete tasks). -/
def isTerminal : GStatus → Bool
  | GStatus.done => true
  | GStatus.cancelled => true
  | _ => false

/-- Content of the `TaskEntity.result` JSON field after execution:
`TaskResult.ok r` models the saved success payload (the response dict) and
`TaskResult.err m` models the failure payload storing `str(e)` under the
key `error`. -/
inductive TaskResult
  | empty
  | ok (response : String)
  | err (message : String)
deriving DecidableEq, Repr

/-- Model of a `TaskEntity` row as read and written by
`TaskExecutor._execute_single_task`.  `result` is the JSON field `result`. -/
structure GTask where
  id : Nat
  title : String
  status : GStatus
  result : TaskResult
deriving DecidableEq, Repr

/-- Loop body of the `async_retry` decorator in `agents/model_router.py`:
`for attempt in range(max_retries + 1): try: return await func(...)
except: if attempt == max_retries: raise e; sleep; continue`.
`f attempt` is the outcome of the attempt with that index; the second
component of the result counts how many attempts were actually made.
The backoff sleep and jitter only affect real time and are not part of the
state modelled here. -/
def retryLoop (f : Nat → Except String α) (attempt : Nat) :
    (retriesLeft : Nat) → Except String α × Nat
  | 0 => (f attempt, attempt + 1)
  | n + 1 =>
    match f attempt with
    | Except.ok a => (Except.ok a, attempt + 1)
    | Except.error _ => retryLoop f (attempt + 1) n

/-- The `async_retry(max_retries)` decorator applied to an effectful call:
runs attempts `0, 1, ..., max_retries`, returning the first success, or the
last exception if every attempt fails. -/
def async_retry (max_retries : Nat) (f : Nat → Except String α) :
    Except String α × Nat :=
  retryLoop f 0 max_retries

/-- Body of `TaskExecutor._execute_single_task` (underneath its decorator):
the whole body is wrapped in `try ... except Exception`, so it never lets an
exception escape; on dispatch success the task is saved with
status done and the result payload, on any exception it is saved with
status cancelled and a result payload recording the error message.
`dispatch` is the outcome of the `orchestrator_agent.process_request` call. -/
def execute_single_task_body (dispatch : Except String String) (task : GTask) :
    Except String GTask :=
  match dispatch with
  | Except.ok resp =>
      Except.ok { task with status := GStatus.done, result := TaskResult.ok resp }
  | Except.error e =>
      Except.ok { task with status := GStatus.cancelled, result := TaskResult.err e }

/-- `TaskExecutor._execute_single_task` as decorated in the source:
`@async_retry(max_retries=3)` wrapped around the exception-swallowing body.
`dispatch n` is the outcome the agent-dispatch collaborator would produce on
the `n`-th attempt; the `Nat` component is the number of attempts made. -/
def execute_single_task (dispatch : Nat → Except String String) (task : GTask) :
    Except String GTask × Nat :=
  async_retry 3 (fun attempt => execute_single_task_body (dispatch attempt) task)

/-!
Sequential model of `TaskExecutor.run_plan`.  The `TaskEntity` table is a
status map `Nat → GStatus` (only statuses are read and written by the loop);
`D t` is the fixed dependency id set of task `t`; `d t` tells whether the
agent dispatch of task `t` succeeds (then `_execute_single_task` saves
`done`) or raises (then it saves `cancelled`).  The loop is given fuel; the
spin branch (`await asyncio.sleep(1); continue`) consumes fuel without
changing state, so genuine non-termination shows up as running out of any
amount of fuel.
-/

/-- The `incomplete` list of one `run_plan` iteration:
tasks of the working set whose status is not terminal. -/
def incompleteOf (ids : List Nat) (sigma : Nat → GStatus) : List Nat :=
  ids.filter (fun t => !(isTerminal (sigma t)))

/-- Dependency check of `run_plan`: every dependency of `t` has status
`done` (`async for dep in task.dependencies.all(): if dep.status != 'done'`). -/
def depsMet (D : Nat → List Nat) (sigma : Nat → GStatus) (t : Nat) : Bool :=
  (D t).all (fun dep => sigma dep == GStatus.done)

/-- The `runnable` list of one `run_plan` iteration: incomplete tasks with
status `todo` whose dependencies are all `done`. -/
def runnableOf (D : Nat → List Nat) (ids : List Nat) (sigma : Nat → GStatus) :
    List Nat :=
  (incompleteOf ids sigma).filter
    (fun t => sigma t == GStatus.todo && depsMet D sigma t)

/-- The `running` list of the stall check: incomplete tasks currently
`in_progress`. -/
def runningOf (ids : List Nat) (sigma : Nat → GStatus) : List Nat :=
  (incompleteOf ids sigma).filter (fun t => sigma t == GStatus.in_progress)

/-- Net effect on the status table of one fan-out round: the batch is marked
`in_progress` by `abulk_update` and then every member is driven to a terminal
status by `_execute_single_task` (done on dispatch success, cancelled on
dispatch failure); tasks outside the batch keep their status. -/
def applyDispatch (d : Nat → Bool) (batch : List Nat) (sigma : Nat → GStatus) :
    Nat → GStatus :=
  fun t =>
    if batch.contains t then (if d t then GStatus.done else GStatus.cancelled)
    else sigma t

/-- Result of `run_plan`: normal return with all tasks complete, the
deadlock/stall break, or fuel exhaustion (the loop still running).  Each
carries the final status table and the accumulated dispatch log (ids in
dispatch order). -/
inductive RunOutcome
  | success (sigma : Nat → GStatus) (log : List Nat)
  | stall (sigma : Nat → GStatus) (log : List Nat)
  | outOfFuel (sigma : Nat → GStatus) (log : List Nat)

def RunOutcome.isSuccess : RunOutcome → Bool
  | RunOutcome.success _ _ => true
  | _ => false

def RunOutcome.isStall : RunOutcome → Bool
  | RunOutcome.stall _ _ => true
  | _ => false

def RunOutcome.isOutOfFuel : RunOutcome → Bool
  | RunOutcome.outOfFuel _ _ => true
  | _ => false

def RunOutcome.finalStatus : RunOutcome → (Nat → GStatus)
  | RunOutcome.success s _ => s
  | RunOutcome.stall s _ => s
  | RunOutcome.outOfFuel s _ => s

def RunOutcome.dispatchLog : RunOutcome → List Nat
  | RunOutcome.success _ l => l
  | RunOutcome.stall _ l => l
  | RunOutcome.outOfFuel _ l => l

/-- `TaskExecutor.run_plan` (single sequential invocation).  Per iteration:
fetch fresh state, break with success when nothing is incomplete, compute the
runnable set, on an empty runnable set break with the deadlock/stall message
when nothing is `in_progress` (else sleep and re-poll), otherwise mark the
runnable tasks `in_progress` in one bulk update and gather their executions
before looping. -/
def run_plan (D : Nat → List Nat) (d : Nat → Bool) (ids : List Nat) :
    Nat → (Nat → GStatus) → List Nat → RunOutcome
  | 0, sigma, log => RunOutcome.outOfFuel sigma log
  | fuel + 1, sigma, log =>
    if incompleteOf ids sigma = [] then RunOutcome.success sigma log
    else if runnableOf D ids sigma = [] then
      (if runningOf ids sigma = [] then RunOutcome.stall sigma log
       else run_plan D d ids fuel sigma log)
    else
      run_plan D d ids fuel (applyDispatch d (runnableOf D ids sigma) sigma)
        (log ++ runnableOf D ids sigma)

/-!
Interleaving model of two concurrent `run_plan` invocations over a shared
`TaskEntity` table.  Each pass of the source loop touches the database at
separate await points: the fetch / runnable computation reads, and the
`abulk_update` + `asyncio.gather` writes and dispatches.  Between those two
points the event loop can run the other invocation.  One loop pass of one
invocation is therefore split into two atomic steps: `fetch` (read a
snapshot and compute the runnable set from it) and `claim` (bulk-write
`in_progress` for the snapshot's runnable set — an unconditional field
update, not a compare-and-set — then dispatch it).  Dispatches are logged as
(invocation number, task id) pairs.
-/

/-- Control point of one executor invocation between its database await
points: before its fetch, holding a computed runnable set, or done with its
pass. -/
inductive ExecPhase
  | fetch
  | claim (runnable : List Nat)
  | finished
deriving DecidableEq, Repr

/-- Shared table plus the two invocations' control points and the global
dispatch log. -/
structure ConcState where
  status : Nat → GStatus
  e1 : ExecPhase
  e2 : ExecPhase
  log : List (Nat × Nat)

/-- The `abulk_update(update_tasks, ['status'])` write of the claim step: it
assigns `in_progress` to every task of the batch unconditionally (there is no
condition on the task's current status in the update). -/
def claimWrite (batch : List Nat) (sigma : Nat → GStatus) : Nat → GStatus :=
  fun t => if batch.contains t then GStatus.in_progress else sigma t

/-- One atomic step of invocation 1 (`who = true`) or 2 (`who = false`):
`fetch` computes the runnable set from the current table; `claim` bulk-writes
`in_progress` for its remembered batch, dispatches every member (logged), and
the gathered executions drive them to terminal statuses. -/
def execStep (D : Nat → List Nat) (ids : List Nat) (who : Bool) (s : ConcState) :
    ConcState :=
  match (if who then s.e1 else s.e2) with
  | ExecPhase.fetch =>
      let r := runnableOf D ids s.status
      if who then { s with e1 := ExecPhase.claim r }
      else { s with e2 := ExecPhase.claim r }
  | ExecPhase.claim batch =>
      let sigma1 := claimWrite batch s.status
      let sigma2 := applyDispatch (fun _ => true) batch sigma1
      let tag : Nat := if who then 1 else 2
      let s1 := { s with status := sigma2,
                         log := s.log ++ batch.map (fun t => (tag, t)) }
      if who then { s1 with e1 := ExecPhase.finished }
      else { s1 with e2 := ExecPhase.finished }
  | ExecPhase.finished => s

/-- Run a schedule (a list of choices of which invocation performs its next
atomic step) from a state. -/
def runSched (D : Nat → List Nat) (ids : List Nat) :
    List Bool → ConcState → ConcState
  | [], s => s
  | w :: ws, s => runSched D ids ws (execStep D ids w s)

/-- How many times task `t` appears in a dispatch log. -/
def dispatchCount (log : List (Nat × Nat)) (t : Nat) : Nat :=
  (log.map Prod.snd).count t

/-- Initial shared state for the double-dispatch scenario: one task, id 0,
status `todo`, no dependencies; both invocations about to fetch. -/
def concInit : ConcState :=
  { status := fun _ => GStatus.todo,
    e1 := ExecPhase.fetch,
    e2 := ExecPhase.fetch,
    log := [] }

/-!
Model of `agents/orchestrator/task_tracker.py`.  A `TrackedTask` is the
in-memory record; the executor closure handed to `start_task` is modelled by
its observable outcome (`ExecOutcome`): it returns a result, raises
`asyncio.CancelledError` after a cancellation request, or raises an ordinary
exception.  Notification callbacks are modelled by their outcomes as well.
Timestamps carry no information used by any claim and are omitted from the
record.
-/

/-- The `TaskStatus` enum of the tracker. -/
inductive TaskStatus
  | pending
  | running
  | completed
  | failed
  | cancelled
deriving DecidableEq, Repr

/-- The `TrackedTask` record.  `_task` tells whether the asyncio handle
exists (it is set by `start_task`); `cancel_requested` models
`task._task.cancel()` having been called on that handle. -/
structure TrackedTask where
  task_id : Nat
  user_id : String
  description : String
  status : TaskStatus
  result : Option String
  error : Option String
  progress_updates : List String
  _task : Bool
  cancel_requested : Bool
deriving DecidableEq, Repr

/-- `TrackedTask.add_progress`: appends the message to the ordered progress
log (the wall-clock timestamp prefix is dropped, only order is modelled). -/
def add_progress (t : TrackedTask) (message : String) : TrackedTask :=
  { t with progress_updates := t.progress_updates ++ [message] }

/-- Observable outcome of the executor closure run by `_execute_task`. -/
inductive ExecOutcome
  | ok (result : String)
  | cancelledError
  | exc (e : String)
deriving DecidableEq, Repr

/-- Observable effect of `TaskTracker._notify_completion`: how many
callbacks were invoked and which callback exceptions were caught and
logged. -/
structure NotifyResult where
  invoked : Nat
  logged : List String
deriving DecidableEq, Repr

/-- One iteration of the `_notify_completion` loop: the callback is awaited
(counted as invoked); if it raises, the exception is logged and swallowed. -/
def notifyStep (acc : NotifyResult) (cb : Except String Unit) : NotifyResult :=
  match cb with
  | Except.ok _ => { acc with invoked := acc.invoked + 1 }
  | Except.error e => { invoked := acc.invoked + 1, logged := acc.logged ++ [e] }

/-- `TaskTracker._notify_completion`: every registered callback is awaited
in order inside its own `try ... except Exception` that only logs, so a
failing callback never stops the loop and nothing propagates. -/
def notify_completion (callbacks : List (Except String Unit)) : NotifyResult :=
  callbacks.foldl notifyStep { invoked := 0, logged := [] }

/-- Everything `TaskTracker._execute_task` leaves behind: the final record,
whether an exception escaped the supervising routine (`raised`), whether
`_notify_completion` was reached, and its effect. -/
structure ExecTaskResult where
  task : TrackedTask
  raised : Option String
  notified : Bool
  notify : NotifyResult
deriving DecidableEq, Repr

/-- `TaskTracker._execute_task`: sets `RUNNING`, runs the executor, and on
success stores the result, sets `COMPLETED` and notifies; on
`asyncio.CancelledError` sets `CANCELLED` (without notifying); on any other
exception stores `str(e)` in `error`, sets `FAILED` and notifies.  All three
paths end inside the routine's own handlers: nothing is re-raised. -/
def execute_task (callbacks : List (Except String Unit)) (t0 : TrackedTask)
    (outcome : ExecOutcome) : ExecTaskResult :=
  let t1 := add_progress { t0 with status := TaskStatus.running } "Task started"
  match outcome with
  | ExecOutcome.ok r =>
      let t2 := add_progress
        { t1 with status := TaskStatus.completed, result := some r }
        "Task completed successfully"
      { task := t2, raised := none, notified := true,
        notify := notify_completion callbacks }
  | ExecOutcome.cancelledError =>
      let t2 := add_progress { t1 with status := TaskStatus.cancelled }
        "Task cancelled"
      { task := t2, raised := none, notified := false,
        notify := { invoked := 0, logged := [] } }
  | ExecOutcome.exc e =>
      let t2 := add_progress
        { t1 with status := TaskStatus.failed, error := some e }
        ("Task failed: " ++ e)
      { task := t2, raised := none, notified := true,
        notify := notify_completion callbacks }

/-- The branch of `_execute_task` that handles `asyncio.CancelledError`
once a cancellation request is delivered to the running coroutine. -/
def markCancelledBranch (t : TrackedTask) : TrackedTask :=
  add_progress { t with status := TaskStatus.cancelled } "Task cancelled"

/-- `TaskTracker.get_task`: dictionary lookup by task id. -/
def get_task (tasks : List TrackedTask) (id : Nat) : Option TrackedTask :=
  tasks.find? (fun t => t.task_id == id)

/-- Effect of `task._task.cancel()` on the table: the handle of the given
task now has a pending cancellation request. -/
def requestCancel (tasks : List TrackedTask) (id : Nat) : List TrackedTask :=
  tasks.map (fun t =>
    if t.task_id == id then { t with cancel_requested := true } else t)

/-- `TaskTracker.cancel_task`: returns `False` when the task is unknown or
has no handle, calls `task._task.cancel()` and returns `True` when the
status is `PENDING` or `RUNNING`, and returns `False` otherwise.  The
Boolean is the complete caller-visible outcome. -/
def cancel_task (tasks : List TrackedTask) (id : Nat) : Bool × List TrackedTask :=
  match get_task tasks id with
  | none => (false, tasks)
  | some t =>
      if !t._task then (false, tasks)
      else if t.status == TaskStatus.pending || t.status == TaskStatus.running then
        (true, requestCancel tasks id)
      else (false, tasks)

/-!
Model of `core/services/reminder_service.py`.  Time is seconds as `Nat`.
The croniter library is an external collaborator: a parsed expression is an
oracle with `get_prev` / `get_next` evaluators, and a failed construction or
evaluation is an `Except.error` (the `try ... except` of `_should_run_now`
turns any of those into `False`).
-/

/-- The slice of a `TaskEntity` row read by `check_and_notify_due_tasks`. -/
structure TaskEntityRow where
  id : Nat
  due_date : Option Nat
  status : GStatus
deriving DecidableEq, Repr

/-- The due filter of `check_and_notify_due_tasks`:
`due_date__gte=now - 1 minute`, `due_date__lte=now`, `status='todo'`
(rows with no due date never match the range filter). -/
def isDue (now : Nat) (t : TaskEntityRow) : Bool :=
  match t.due_date with
  | some d => decide (now - 60 ≤ d) && decide (d ≤ now) && (t.status == GStatus.todo)
  | none => false

/-- Whether `_send_task_notification` returns without raising for a task id
(`send` is the notification collaborator). -/
def sendSucceeds (send : Nat → Except String Unit) (t : TaskEntityRow) : Bool :=
  match send t.id with
  | Except.ok _ => true
  | Except.error _ => false

/-- `ReminderService.check_and_notify_due_tasks`: scans for `todo` rows whose
due date lies in the trailing one-minute window, sends one notification per
matching row (a raising send is caught and logged, and does not count), and
returns the notification count.  The function performs no writes: the
returned table is the input table.  Result: (notification count, notified
task ids in order, table after the call). -/
def check_and_notify_due_tasks (send : Nat → Except String Unit) (now : Nat)
    (tasks : List TaskEntityRow) : Nat × List Nat × List TaskEntityRow :=
  let due := tasks.filter (isDue now)
  let notified := due.filter (sendSucceeds send)
  (notified.length, notified.map (fun t => t.id), tasks)

/-- A parsed croniter object for one cron expression: `get_prev base` is the
most recent scheduled occurrence strictly before `base`, `get_next base` the
earliest scheduled occurrence strictly after `base`; either evaluator may
fail. -/
structure Croniter where
  get_prev : Nat → Except String Nat
  get_next : Nat → Except String Nat

/-- `ReminderService._should_run_now`.  The whole body runs inside
`try ... except Exception: return False`, so a failed croniter construction
(`cron` is an `Except.error`) or a failed evaluation yields `False`.
Never-run jobs are due when the most recent occurrence strictly before `now`
is less than 60 seconds ago; previously-run jobs are due when the earliest
occurrence strictly after `last_run` is at or before `now`. -/
def should_run_now (cron : Except String Croniter) (last_run : Option Nat)
    (now : Nat) : Bool :=
  match cron with
  | Except.error _ => false
  | Except.ok c =>
    match last_run with
    | none =>
      match c.get_prev now with
      | Except.error _ => false
      | Except.ok prev_run => decide (now - prev_run < 60)
    | some lr =>
      match c.get_next lr with
      | Except.error _ => false
      | Except.ok next_run => decide (next_run ≤ now)

/-- The croniter oracle for the expression `* * * * *`: occurrences are
exactly the multiples of 60 seconds. -/
def everyMinute : Croniter :=
  { get_prev := fun base =>
      Except.ok (if base % 60 = 0 then base - 60 else base / 60 * 60),
    get_next := fun base => Except.ok (base / 60 * 60 + 60) }

/-- The slice of a `CronJob` row used by `execute_scheduled_tasks`. -/
structure CronJobRow where
  cron : Except String Croniter
  last_run_at : Option Nat
  is_active : Bool

/-- One job's handling inside one `execute_scheduled_tasks` tick at time
`now`: inactive jobs are not even fetched; a due job has its tool executed
(`execOk now` tells whether `_execute_cron_job` raises) and only on success
is `last_run_at` advanced to `now` and the execution counted — a raising
execution is caught by the per-job handler and leaves `last_run_at`
unchanged.  Returns the updated row and whether the job fired. -/
def tickJob (execOk : Nat → Bool) (now : Nat) (j : CronJobRow) :
    CronJobRow × Bool :=
  if j.is_active && should_run_now j.cron j.last_run_at now then
    (if execOk now then ({ j with last_run_at := some now }, true)
     else (j, false))
  else (j, false)

/-- Repeated scheduler ticks over one job: returns the final row and the
list of tick times at which the job fired. -/
def runTicks (execOk : Nat → Bool) : List Nat → CronJobRow → CronJobRow × List Nat
  | [], j => (j, [])
  | now :: rest, j =>
    let step := tickJob execOk now j
    let tail := runTicks execOk rest step.1
    (tail.1, (if step.2 then [now] else []) ++ tail.2)

/-!
Model of `TaskPlanner.plan_objective`.  The planning collaborator's output,
after the markdown-fence stripping, goes through `json.loads`; only
`json.JSONDecodeError` is caught.  The decoded value is an untyped JSON
tree, and the two persistence passes index into it with raw subscripts
(`item['title']`, `item['id']`, ...), which raise `KeyError` / `TypeError`
on values of the wrong shape — those exceptions are not caught by the
planner.  `json.loads` itself is Python library code, modelled by handing
`plan_objective` the decode outcome directly.
-/

/-- Untyped JSON value as produced by `json.loads`. -/
inductive Json
  | null
  | jbool (b : Bool)
  | jnum (n : Int)
  | jstr (s : String)
  | jarr (elems : List Json)
  | jobj (fields : List (String × Json))

/-- Python exceptions that the planner body can raise past its single
`except json.JSONDecodeError` handler. -/
inductive PyErr
  | keyError (k : String)
  | typeError
deriving DecidableEq, Repr

mutual

/-- Structural equality of JSON values (Python `==` used by dict lookups). -/
def Json.beq : Json → Json → Bool
  | Json.null, Json.null => true
  | Json.jbool a, Json.jbool b => a == b
  | Json.jnum a, Json.jnum b => a == b
  | Json.jstr a, Json.jstr b => a == b
  | Json.jarr a, Json.jarr b => Json.beqList a b
  | Json.jobj a, Json.jobj b => Json.beqFields a b
  | _, _ => false

def Json.beqList : List Json → List Json → Bool
  | [], [] => true
  | x :: xs, y :: ys => Json.beq x y && Json.beqList xs ys
  | _, _ => false

def Json.beqFields : List (String × Json) → List (String × Json) → Bool
  | [], [] => true
  | (k1, v1) :: xs, (k2, v2) :: ys =>
      k1 == k2 && Json.beq v1 v2 && Json.beqFields xs ys
  | _, _ => false

end

/-- Python subscript `item[k]`: a key lookup on a dict (`KeyError` when the
key is absent), `TypeError`-like failure on any non-dict value (string
subscripts on lists/strings raise `TypeError` / `IndexError`; the model
collapses these non-dict failures into `typeError`). -/
def getItem (j : Json) (k : String) : Except PyErr Json :=
  match j with
  | Json.jobj fields =>
    match fields.find? (fun kv => kv.1 == k) with
    | some kv => Except.ok kv.2
    | none => Except.error (PyErr.keyError k)
  | _ => Except.error (PyErr.typeError)

/-- Python `item.get(k, default)` on a dict; `plan_objective` only reaches
its `.get` calls after a successful subscript has proven `item` is a dict,
so the non-dict case simply yields the default. -/
def pyGet (j : Json) (k : String) (dflt : Json) : Json :=
  match j with
  | Json.jobj fields =>
    match fields.find? (fun kv => kv.1 == k) with
    | some kv => kv.2
    | none => dflt
  | _ => dflt

/-- Python iteration `for item in x`: lists yield their elements, dicts
their keys, strings their characters; numbers and booleans raise
`TypeError`. -/
def pyIter (j : Json) : Except PyErr (List Json) :=
  match j with
  | Json.jarr xs => Except.ok xs
  | Json.jobj fields => Except.ok (fields.map (fun kv => Json.jstr kv.1))
  | Json.jstr s => Except.ok (s.data.map (fun c => Json.jstr (String.mk [c])))
  | _ => Except.error (PyErr.typeError)

/-- Python truthiness (the `if not item.get('dependencies')` guard). -/
def isFalsy : Json → Bool
  | Json.null => true
  | Json.jbool b => !b
  | Json.jnum n => n == 0
  | Json.jstr s => s == ""
  | Json.jarr xs => xs.isEmpty
  | Json.jobj fields => fields.isEmpty

/-- Whether a JSON value can be a Python dict key (lists and dicts are
unhashable and raise `TypeError` when used as keys). -/
def hashable : Json → Bool
  | Json.jarr _ => false
  | Json.jobj _ => false
  | _ => true

/-- A created `TaskEntity` row of the first persistence pass
(`status='todo'`, agent defaulted to `'orchestrator'`; fields irrelevant to
the parse behaviour are omitted). -/
structure PlannedRow where
  title : Json
  description : Json
  assigned_agent : Json
  status : GStatus

/-- Insert into the `task_map` dict (insertion order kept, an existing key
is overwritten in place). -/
def mapInsert (m : List (Json × PlannedRow)) (k : Json) (v : PlannedRow) :
    List (Json × PlannedRow) :=
  if m.any (fun kv => Json.beq kv.1 k) then
    m.map (fun kv => if Json.beq kv.1 k then (kv.1, v) else kv)
  else m ++ [(k, v)]

/-- Lookup in the `task_map` dict. -/
def mapLookup (m : List (Json × PlannedRow)) (k : Json) : Option PlannedRow :=
  (m.find? (fun kv => Json.beq kv.1 k)).map (fun kv => kv.2)

/-- First pass of `plan_objective`: create a `TaskEntity` per item (reading
`item['title']`, `item['description']`, `item.get('agent', 'orchestrator')`)
and record it in `task_map` under `item['id']`. -/
def firstPass : List Json → List (Json × PlannedRow) →
    Except PyErr (List (Json × PlannedRow))
  | [], m => Except.ok m
  | item :: rest, m =>
    match getItem item "title" with
    | Except.error e => Except.error e
    | Except.ok t =>
      match getItem item "description" with
      | Except.error e => Except.error e
      | Except.ok d =>
        let a := pyGet item "agent" (Json.jstr "orchestrator")
        match getItem item "id" with
        | Except.error e => Except.error e
        | Except.ok idv =>
          if hashable idv then
            firstPass rest
              (mapInsert m idv
                { title := t, description := d, assigned_agent := a,
                  status := GStatus.todo })
          else Except.error (PyErr.typeError)

/-- Edge collection for one item of the second pass: for each
`dep_id in item['dependencies']`, an edge is attached when `dep_id` is a key
of `task_map` (an unhashable `dep_id` raises `TypeError` at the membership
test). -/
def collectDeps (m : List (Json × PlannedRow)) (src : Json) :
    List Json → Except PyErr (List (Json × Json))
  | [] => Except.ok []
  | dep :: rest =>
    if hashable dep then
      if m.any (fun kv => Json.beq kv.1 dep) then
        match collectDeps m src rest with
        | Except.error e => Except.error e
        | Except.ok es => Except.ok ((src, dep) :: es)
      else collectDeps m src rest
    else Except.error (PyErr.typeError)

/-- Second pass of `plan_objective`: skip items whose
`item.get('dependencies')` is falsy; otherwise look the item up in
`task_map` by `item['id']` and attach its dependency edges. -/
def secondPass (m : List (Json × PlannedRow)) :
    List Json → Except PyErr (List (Json × Json))
  | [] => Except.ok []
  | item :: rest =>
    let depsv := pyGet item "dependencies" Json.null
    if isFalsy depsv then secondPass m rest
    else
      match getItem item "id" with
      | Except.error e => Except.error e
      | Except.ok idv =>
        if hashable idv then
          match mapLookup m idv with
          | none => Except.error (PyErr.keyError "task_map")
          | some _ =>
            match pyIter depsv with
            | Except.error e => Except.error e
            | Except.ok deps =>
              match collectDeps m idv deps with
              | Except.error e => Except.error e
              | Except.ok es =>
                match secondPass m rest with
                | Except.error e => Except.error e
                | Except.ok rest_es => Except.ok (es ++ rest_es)
        else Except.error (PyErr.typeError)

/-- `TaskPlanner.plan_objective` downstream of the collaborator call:
`decoded` is the outcome of `json.loads` on the cleaned output.  A decode
failure is caught (`except json.JSONDecodeError`) and yields an empty plan;
a decoded value is run through both persistence passes, whose own
exceptions propagate to the caller.  Returns the created rows (the ids the
source returns) and the attached dependency edges. -/
def plan_objective (decoded : Except String Json) :
    Except PyErr (List PlannedRow × List (Json × Json)) :=
  match decoded with
  | Except.error _ => Except.ok ([], [])
  | Except.ok plan_data =>
    match pyIter plan_data with
    | Except.error e => Except.error e
    | Except.ok items =>
      match firstPass items [] with
      | Except.error e => Except.error e
      | Except.ok m =>
        match secondPass m items with
        | Except.error e => Except.error e
        | Except.ok edges =>
            Except.ok (m.map (fun kv => kv.2), edges)

/-!
Supporting lemmas.
-/

/-- The exceptions that the registered callbacks raise, in callback order. -/
def cbErrors (callbacks : List (Except String Unit)) : List String :=
  callbacks.filterMap (fun cb =>
    match cb with
    | Except.ok _ => none
    | Except.error e => some e)

theorem notifyStep_foldl (callbacks : List (Except String Unit)) :
    ∀ acc : NotifyResult,
      (callbacks.foldl notifyStep acc).invoked = acc.invoked + callbacks.length ∧
      (callbacks.foldl notifyStep acc).logged = acc.logged ++ cbErrors callbacks := by
  induction callbacks with
  | nil => intro acc; simp [cbErrors]
  | cons cb rest ih =>
    intro acc
    cases cb with
    | ok u =>
        have h := ih { acc with invoked := acc.invoked + 1 }
        simp [List.foldl, notifyStep, cbErrors, List.filterMap] at h ⊢
        exact ⟨by omega, h.2⟩
    | error e =>
        have h := ih { invoked := acc.invoked + 1, logged := acc.logged ++ [e] }
        simp [List.foldl, notifyStep, cbErrors, List.filterMap] at h ⊢
        exact ⟨by omega, by simp [h.2, cbErrors]⟩

/-- `_notify_completion` invokes every registered callback and collects
exactly the raised callback exceptions into the log. -/
theorem notify_completion_spec (callbacks : List (Except String Unit)) :
    (notify_completion callbacks).invoked = callbacks.length ∧
    (notify_completion callbacks).logged = cbErrors callbacks := by
  have h := notifyStep_foldl callbacks { invoked := 0, logged := [] }
  simpa [notify_completion] using h

/-!
Claim C3: retry and failure recording of a single graph-task dispatch.
-/

/-- A concrete claimed task as `run_plan` hands it to
`_execute_single_task`. -/
def demoGTask : GTask :=
  { id := 0, title := "t", status := GStatus.in_progress,
    result := TaskResult.empty }

/-- Claim C3 is false as stated: with an agent dispatch that always raises,
`_execute_single_task` makes exactly ONE dispatch attempt (attempt count 1,
not 3) before the task is recorded as failed, because the body's internal
`except Exception` swallows the error before the `async_retry` wrapper can
see it; the failure reason lands in the `result` payload with status
`cancelled`. -/
theorem execute_single_task_no_retry_counterexample :
    execute_single_task (fun _ => Except.error "boom") demoGTask =
      (Except.ok
        { demoGTask with
            status := GStatus.cancelled, result := TaskResult.err "boom" },
       1) ∧ (1 : Nat) ≠ 3 := by
  constructor
  · rfl
  · decide

/-- Claim C3 amended: every dispatch outcome is absorbed by the body of
`_execute_single_task` itself, so the surrounding `async_retry(max_retries=3)`
decorator always observes a success and performs exactly one attempt; on
dispatch success the result is stored and status becomes `done`, and on
dispatch failure the task is immediately recorded with status `cancelled`
and the failure reason in the result payload — no retry ever happens. -/
theorem execute_single_task_single_attempt (dispatch : Nat → Except String String)
    (task : GTask) :
    execute_single_task dispatch task =
      (Except.ok (match dispatch 0 with
        | Except.ok resp =>
            { task with status := GStatus.done, result := TaskResult.ok resp }
        | Except.error e =>
            { task with status := GStatus.cancelled,
                        result := TaskResult.err e }), 1) := by
  cases h : dispatch 0 <;>
    simp [execute_single_task, async_retry, retryLoop, execute_single_task_body, h]

/-!
Claims C4, C7, C8: tracker notification, cancellation, and failure
containment.
-/

/-- A running tracked task whose cancellation has been requested. -/
def demoTracked : TrackedTask :=
  { task_id := 3, user_id := "u", description := "demo",
    status := TaskStatus.running, result := none, error := none,
    progress_updates := [], _task := true, cancel_requested := true }

/-- One registered notification callback that succeeds. -/
def demoCallbacks : List (Except String Unit) := [Except.ok ()]

/-- Claim C4 is false as stated: a task that reaches the terminal state
`Cancelled` (the `asyncio.CancelledError` branch of `_execute_task`) is
marked terminal but `_notify_completion` is never called, so the one
registered callback is invoked zero times — callbacks fire only on
`Completed` and `Failed`. -/
theorem cancelled_task_skips_callbacks :
    (execute_task demoCallbacks demoTracked ExecOutcome.cancelledError).task.status
      = TaskStatus.cancelled ∧
    (execute_task demoCallbacks demoTracked ExecOutcome.cancelledError).notified
      = false ∧
    (execute_task demoCallbacks demoTracked ExecOutcome.cancelledError).notify.invoked
      = 0 ∧
    demoCallbacks.length = 1 := by
  decide

/-- Claim C4 amended: the tracker invokes every registered notification
callback with the finished task when the task reaches `Completed` or
`Failed`; callback exceptions are caught and logged, never propagated, and
never prevent the terminal status from being recorded — but the `Cancelled`
terminal state notifies no callback at all. -/
theorem execute_task_callback_policy (callbacks : List (Except String Unit))
    (t : TrackedTask) :
    (∀ r, (execute_task callbacks t (ExecOutcome.ok r)).task.status
            = TaskStatus.completed ∧
          (execute_task callbacks t (ExecOutcome.ok r)).notified = true ∧
          (execute_task callbacks t (ExecOutcome.ok r)).notify.invoked
            = callbacks.length ∧
          (execute_task callbacks t (ExecOutcome.ok r)).notify.logged
            = cbErrors callbacks ∧
          (execute_task callbacks t (ExecOutcome.ok r)).raised = none) ∧
    (∀ e, (execute_task callbacks t (ExecOutcome.exc e)).task.status
            = TaskStatus.failed ∧
          (execute_task callbacks t (ExecOutcome.exc e)).notified = true ∧
          (execute_task callbacks t (ExecOutcome.exc e)).notify.invoked
            = callbacks.length ∧
          (execute_task callbacks t (ExecOutcome.exc e)).notify.logged
            = cbErrors callbacks ∧
          (execute_task callbacks t (ExecOutcome.exc e)).raised = none) ∧
    ((execute_task callbacks t ExecOutcome.cancelledError).task.status
        = TaskStatus.cancelled ∧
     (execute_task callbacks t ExecOutcome.cancelledError).notified = false ∧
     (execute_task callbacks t ExecOutcome.cancelledError).notify.invoked = 0 ∧
     (execute_task callbacks t ExecOutcome.cancelledError).raised = none) := by
  have hn := notify_completion_spec callbacks
  refine ⟨fun r => ⟨rfl, rfl, ?_, ?_, rfl⟩, fun e => ⟨rfl, rfl, ?_, ?_, rfl⟩,
          rfl, rfl, rfl, rfl⟩ <;>
    simp [execute_task, hn.1, hn.2]

/-- Claim C8: an exception raised inside the dispatched unit is caught at
the supervising `_execute_task` boundary, stored in the record's `error`
field, results in status `Failed`, and never escapes (`raised = none`); the
finished record stays registered under its task id, to be observed by
polling `get_task`. -/
theorem dispatch_exception_contained (callbacks : List (Except String Unit))
    (t : TrackedTask) (e : String) :
    (execute_task callbacks t (ExecOutcome.exc e)).raised = none ∧
    (execute_task callbacks t (ExecOutcome.exc e)).task.status
      = TaskStatus.failed ∧
    (execute_task callbacks t (ExecOutcome.exc e)).task.error = some e ∧
    (execute_task callbacks t (ExecOutcome.exc e)).task.task_id = t.task_id ∧
    get_task [(execute_task callbacks t (ExecOutcome.exc e)).task] t.task_id
      = some (execute_task callbacks t (ExecOutcome.exc e)).task := by
  refine ⟨rfl, rfl, rfl, rfl, ?_⟩
  simp [get_task, List.find?, execute_task, add_progress]

/-- A pending tracked task with a live handle (cancellable). -/
def demoPending : TrackedTask :=
  { task_id := 1, user_id := "u", description := "demo",
    status := TaskStatus.pending, result := none, error := none,
    progress_updates := [], _task := true, cancel_requested := false }

/-- A completed (terminal) tracked task. -/
def demoDone : TrackedTask :=
  { demoPending with task_id := 2, status := TaskStatus.completed }

/-- A small tracker table with one cancellable and one terminal task. -/
def demoTable : List TrackedTask := [demoPending, demoDone]

/-- Claim C7 is false as stated: `cancel_task` returns a plain Boolean, so
a missing task (id 99) and an already-terminal task (id 2) produce the very
same outcome `false` — `not_found` and `already_terminal` are not
distinguishable; moreover an immediate second cancel of the pending task
returns `true` again (not `already_terminal`), because the cooperative
cancellation has not yet been delivered. -/
theorem cancel_outcomes_indistinguishable :
    (cancel_task demoTable 99).1 = false ∧
    (cancel_task demoTable 2).1 = false ∧
    (cancel_task demoTable 99).1 = (cancel_task demoTable 2).1 ∧
    (cancel_task demoTable 1).1 = true ∧
    (cancel_task (cancel_task demoTable 1).2 1).1 = true := by
  decide

/-- Claim C7 amended: `cancel_task` never raises and returns a two-valued
outcome: `true` exactly when the task exists, has a started handle, and is
still `Pending` or `Running` (cancellation is then requested); `false` both
when the task is unknown and when it is already terminal — the two failure
cases are indistinguishable to the caller.  A repeated cancel returns
`false` only once the delivered cancellation has marked the task
`Cancelled`. -/
theorem cancel_task_outcomes (tasks : List TrackedTask) (id : Nat) :
    ((cancel_task tasks id).1 = true ↔
      ∃ t, get_task tasks id = some t ∧ t._task = true ∧
        (t.status = TaskStatus.pending ∨ t.status = TaskStatus.running)) ∧
    (get_task tasks id = none → (cancel_task tasks id).1 = false) ∧
    (∀ t, get_task tasks id = some t →
      (t.status = TaskStatus.completed ∨ t.status = TaskStatus.failed ∨
        t.status = TaskStatus.cancelled) →
      (cancel_task tasks id).1 = false) := by
  rcases h : get_task tasks id with _ | t
  · simp [cancel_task, h]
  · cases ht : t._task <;> cases hs : t.status <;>
      simp [cancel_task, h, ht, hs]

/-- Witness for the amended C7 theorem at the demo table: cancelling the
pending task succeeds, cancelling the terminal task fails. -/
theorem cancel_task_outcomes_witness :
    (cancel_task demoTable 1).1 = true ∧ (cancel_task demoTable 2).1 = false :=
  ⟨(cancel_task_outcomes demoTable 1).1.mpr
    ⟨demoPending, by decide, by decide, Or.inl (by decide)⟩,
   (cancel_task_outcomes demoTable 2).2.2 demoDone (by decide)
    (Or.inl (by decide))⟩

/-!
Claim C6: one-shot due-date reminder deduplication.
-/

/-- A notification collaborator that always delivers. -/
def sendOk : Nat → Except String Unit := fun _ => Except.ok ()

/-- A one-shot `todo` task due at second 100. -/
def demoReminder : TaskEntityRow :=
  { id := 7, due_date := some 100, status := GStatus.todo }

/-- Claim C6 is false as stated: `check_and_notify_due_tasks` never marks an
item notified (it performs no write at all), so the same task, still inside
the trailing one-minute window on the next tick, is notified again — two
invocations produce two notifications for task 7. -/
theorem due_reminder_renotifies :
    (check_and_notify_due_tasks sendOk 100 [demoReminder]).2.1 = [7] ∧
    (check_and_notify_due_tasks sendOk 110
      (check_and_notify_due_tasks sendOk 100 [demoReminder]).2.2).2.1 = [7] := by
  decide

/-- Claim C6 amended: within a single invocation,
`check_and_notify_due_tasks` fires exactly one notification per matching
item (every `todo` row with a due date in the trailing one-minute window
whose send succeeds, each listed once when row ids are unique), but it does
NOT mark items notified and leaves the table unchanged, so a later
invocation over the same window re-notifies the same items. -/
theorem check_due_reminders_no_marking (send : Nat → Except String Unit)
    (now : Nat) (tasks : List TaskEntityRow)
    (hids : (tasks.map (fun t => t.id)).Nodup) :
    (check_and_notify_due_tasks send now tasks).2.2 = tasks ∧
    ((check_and_notify_due_tasks send now tasks).2.1).Nodup ∧
    (∀ t ∈ tasks, isDue now t = true → sendSucceeds send t = true →
      t.id ∈ (check_and_notify_due_tasks send now tasks).2.1) ∧
    (check_and_notify_due_tasks send now tasks).1 =
      ((check_and_notify_due_tasks send now tasks).2.1).length := by
  refine ⟨rfl, ?_, ?_, ?_⟩
  · have hsub : List.Sublist
        (((tasks.filter (isDue now)).filter (sendSucceeds send)).map
          (fun t => t.id))
        (tasks.map (fun t => t.id)) :=
      List.Sublist.map _ ((List.filter_sublist _).trans (List.filter_sublist _))
    exact List.Nodup.sublist hsub hids
  · intro t ht hdue hsend
    exact List.mem_map.mpr
      ⟨t, List.mem_filter.mpr ⟨List.mem_filter.mpr ⟨ht, hdue⟩, hsend⟩, rfl⟩
  · simp [check_and_notify_due_tasks]

/-- Witness for the amended C6 theorem at a concrete table. -/
theorem check_due_reminders_no_marking_witness :
    (check_and_notify_due_tasks sendOk 100 [demoReminder]).2.2 = [demoReminder] ∧
    ((check_and_notify_due_tasks sendOk 100 [demoReminder]).2.1).Nodup :=
  ⟨(check_due_reminders_no_marking sendOk 100 [demoReminder] (by decide)).1,
   (check_due_reminders_no_marking sendOk 100 [demoReminder] (by decide)).2.1⟩

/-!
Claim C9: planner parse-failure policy.
-/

/-- Claim C9 is false as stated: collaborator output that decodes as JSON
but does not have the expected structure is NOT degraded to an empty plan —
a list item without a `title` key makes `plan_objective` raise `KeyError`
(only `json.JSONDecodeError` is caught), and a top-level non-iterable value
raises `TypeError`. -/
theorem plan_objective_raises_on_malformed_item :
    plan_objective (Except.ok (Json.jarr [Json.jobj [("id", Json.jstr "a")]])) =
      Except.error (PyErr.keyError "title") ∧
    plan_objective (Except.ok (Json.jnum 5)) = Except.error PyErr.typeError := by
  exact ⟨rfl, rfl⟩

/-- Claim C9 amended: only a JSON decode failure of the collaborator output
is caught and degraded to an empty plan without raising; output that decodes
but lacks the expected structure (e.g. an item with no `title`) raises a
`KeyError` / `TypeError` that propagates to the caller of `plan`. -/
theorem plan_objective_parse_policy :
    (∀ msg : String, plan_objective (Except.error msg) = Except.ok ([], [])) ∧
    plan_objective (Except.ok (Json.jarr [Json.jobj [("id", Json.jstr "a")]])) =
      Except.error (PyErr.keyError "title") := by
  exact ⟨fun msg => rfl, rfl⟩

/-!
Claim C10: invalid cron expressions are silently skipped.
-/

/-- Claim C10: a cron expression whose croniter construction fails — and
likewise one whose evaluators fail — makes `_should_run_now` return `false`
instead of raising, for every state of `last_run` and `now`; consequently
such a job never fires at any tick and its row (including `last_run_at`) is
never touched, and the tick itself never raises because the due check
consumed the error. -/
theorem invalid_cron_never_fires :
    (∀ (msg : String) (lr : Option Nat) (now : Nat),
      should_run_now (Except.error msg) lr now = false) ∧
    (∀ (pf nf : Nat → String) (lr : Option Nat) (now : Nat),
      should_run_now
        (Except.ok { get_prev := fun b => Except.error (pf b),
                     get_next := fun b => Except.error (nf b) }) lr now = false) ∧
    (∀ (msg : String) (lr : Option Nat) (execOk : Nat → Bool) (ticks : List Nat),
      (runTicks execOk ticks
        { cron := Except.error msg, last_run_at := lr, is_active := true }).2
          = [] ∧
      (runTicks execOk ticks
        { cron := Except.error msg, last_run_at := lr, is_active := true }).1
          = { cron := Except.error msg, last_run_at := lr, is_active := true }) := by
  refine ⟨?_, ?_, ?_⟩
  · intro msg lr now; cases lr <;> rfl
  · intro pf nf lr now; cases lr <;> rfl
  · intro msg lr execOk ticks
    induction ticks with
    | nil => exact ⟨rfl, rfl⟩
    | cons t rest ih =>
      simpa [runTicks, tickJob, should_run_now] using ih

/-!
Claim C1: the claim step and double dispatch.
-/

/-- Claim C1 is false as stated: in the interleaving where both concurrent
`run_plan` invocations pass their fetch/selection await point before either
reaches its `abulk_update` (schedule: invocation 1 fetches, invocation 2
fetches, invocation 1 claims and dispatches, invocation 2 claims and
dispatches), both select task 0 as runnable, both blindly write
`in_progress`, and task 0 is dispatched twice — the selection pass and the
status flip are separate database operations with no conditional guard, not
an atomic claim. -/
theorem concurrent_claim_double_dispatch :
    dispatchCount
      ((runSched (fun _ => []) [0] [true, false, true, false] concInit).log) 0
      = 2 := by
  decide

theorem run_plan_log_nodup_aux (D : Nat → List Nat) (d : Nat → Bool)
    (ids : List Nat) (hids : ids.Nodup) :
    ∀ (fuel : Nat) (sigma : Nat → GStatus) (log : List Nat),
      log.Nodup → (∀ t ∈ log, isTerminal (sigma t) = true) →
      ((run_plan D d ids fuel sigma log).dispatchLog).Nodup := by
  intro fuel
  induction fuel with
  | zero =>
    intro sigma log hnd _
    simpa [run_plan, RunOutcome.dispatchLog] using hnd
  | succ n ih =>
    intro sigma log hnd hterm
    by_cases h1 : incompleteOf ids sigma = []
    · simpa [run_plan, h1, RunOutcome.dispatchLog] using hnd
    · by_cases h2 : runnableOf D ids sigma = []
      · by_cases h3 : runningOf ids sigma = []
        · simpa [run_plan, h1, h2, h3, RunOutcome.dispatchLog] using hnd
        · simpa [run_plan, h1, h2, h3] using ih sigma log hnd hterm
      · have hbatch_nodup : (runnableOf D ids sigma).Nodup :=
          List.Nodup.filter _ (List.Nodup.filter _ hids)
        have hdisj : ∀ a ∈ log, a ∉ runnableOf D ids sigma := by
          intro a ha hmem
          have hinc := (List.mem_filter.mp hmem).1
          have := (List.mem_filter.mp hinc).2
          have hta := hterm a ha
          simp [hta] at this
        have hnd2 : (log ++ runnableOf D ids sigma).Nodup := by
          rw [List.nodup_append]
          exact ⟨hnd, hbatch_nodup, hdisj⟩
        have hterm2 : ∀ t ∈ log ++ runnableOf D ids sigma,
            isTerminal (applyDispatch d (runnableOf D ids sigma) sigma t) = true := by
          intro t htm
          by_cases hb : (runnableOf D ids sigma).contains t
          · simp only [applyDispatch, hb, if_true]
            cases d t <;> rfl
          · simp only [applyDispatch, hb, if_false]
            rcases List.mem_append.mp htm with hl | hr
            · exact hterm t hl
            · exact absurd (List.elem_iff.mpr hr) (by simpa using hb)
        simpa [run_plan, h1, h2] using
          ih (applyDispatch d (runnableOf D ids sigma) sigma)
            (log ++ runnableOf D ids sigma) hnd2 hterm2

/-- Claim C1 amended: the claim step of `run_plan` is a blind bulk write of
`in_progress` performed after the selection read (check-then-set, not an
atomic conditional claim).  Within a single sequential `run` invocation
over a duplicate-free working set this still never dispatches a task twice
(the dispatch log stays duplicate-free, because every dispatched task is
terminal afterwards and only `todo` tasks are selected) — but concurrent
overlapping invocations can double-dispatch, as the counterexample
schedule shows. -/
theorem run_plan_sequential_no_double_dispatch (D : Nat → List Nat)
    (d : Nat → Bool) (ids : List Nat) (sigma : Nat → GStatus) (fuel : Nat)
    (hids : ids.Nodup) :
    ((run_plan D d ids fuel sigma []).dispatchLog).Nodup :=
  run_plan_log_nodup_aux D d ids hids fuel sigma [] List.nodup_nil (by simp)

/-- Witness for the amended C1 theorem at a concrete two-task chain. -/
theorem run_plan_sequential_no_double_dispatch_witness :
    ([0, 1] : List Nat).Nodup ∧
    ((run_plan (fun t => if t = 1 then [0] else []) (fun _ => true) [0, 1] 3
      (fun _ => GStatus.todo) []).dispatchLog).Nodup :=
  ⟨by decide,
   run_plan_sequential_no_double_dispatch (fun t => if t = 1 then [0] else [])
     (fun _ => true) [0, 1] (fun _ => GStatus.todo) 3 (by decide)⟩

/-!
Claim C2: termination and stall detection of `run_plan`.
-/

/-- A status table whose every task is stuck `in_progress`. -/
def stuckStatus : Nat → GStatus := fun _ => GStatus.in_progress

theorem run_plan_stuck_spins (fuel : Nat) :
    run_plan (fun _ => []) (fun _ => true) [0] fuel stuckStatus [] =
      RunOutcome.outOfFuel stuckStatus [] := by
  induction fuel with
  | zero => rfl
  | succ n ih =>
    show run_plan _ _ _ (n + 1) _ _ = _
    simp only [run_plan]
    rw [if_neg (by decide), if_pos (by decide), if_neg (by decide)]
    exact ih

/-- Claim C2 is false as stated: a working set holding a task that is
already `in_progress` (with no live execution behind it) makes `run_plan`
loop indefinitely — the runnable set is empty but the `running` check keeps
sending the loop back to sleep, so after any number of iterations (here
1000) the loop is still running and no stall is ever declared. -/
theorem run_plan_spins_on_in_flight_task :
    run_plan (fun _ => []) (fun _ => true) [0] 1000 stuckStatus [] =
      RunOutcome.outOfFuel stuckStatus [] ∧
    (∀ t ∈ ([0] : List Nat), isTerminal (stuckStatus t) = false) :=
  ⟨run_plan_stuck_spins 1000, by decide⟩

/-- One run only moves statuses towards terminal values: every task either
keeps its status or has become terminal. -/
def Preserves (s0 s1 : Nat → GStatus) : Prop :=
  ∀ t, s1 t = s0 t ∨ isTerminal (s1 t) = true

theorem preserves_self (s : Nat → GStatus) : Preserves s s :=
  fun _ => Or.inl rfl

theorem preserves_trans {s0 s1 s2 : Nat → GStatus} (h01 : Preserves s0 s1)
    (h12 : Preserves s1 s2) : Preserves s0 s2 := by
  intro t
  rcases h12 t with h | h
  · rw [h]; exact h01 t
  · exact Or.inr h

theorem applyDispatch_preserves (d : Nat → Bool) (batch : List Nat)
    (sigma : Nat → GStatus) : Preserves sigma (applyDispatch d batch sigma) := by
  intro t
  by_cases hb : batch.contains t
  · right
    simp only [applyDispatch, hb, if_true]
    cases d t <;> rfl
  · left
    have hb2 : t ∉ batch := by simpa using hb
    simp [applyDispatch, hb2]

theorem applyDispatch_no_inprogress (d : Nat → Bool) (batch : List Nat)
    (sigma : Nat → GStatus) (t : Nat) (h : sigma t ≠ GStatus.in_progress) :
    applyDispatch d batch sigma t ≠ GStatus.in_progress := by
  by_cases hb : batch.contains t
  · simp only [applyDispatch, hb, if_true]
    cases d t <;> simp
  · have hb2 : t ∉ batch := by simpa using hb
    simpa [applyDispatch, hb2] using h

theorem length_filter_mono {p q : Nat → Bool} :
    ∀ l : List Nat, (∀ a ∈ l, q a = true → p a = true) →
      (l.filter q).length ≤ (l.filter p).length := by
  intro l
  induction l with
  | nil => intro _; simp
  | cons x xs ih =>
    intro h
    have hxs : ∀ a ∈ xs, q a = true → p a = true :=
      fun a ha hqa => h a (List.mem_cons_of_mem _ ha) hqa
    have hih := ih hxs
    by_cases hq : q x = true
    · have hp := h x (List.mem_cons_self _ _) hq
      simp only [List.filter_cons, hq, hp, if_true, List.length_cons]
      omega
    · by_cases hp : p x = true <;>
        simp only [List.filter_cons, hq, hp, if_true, if_false,
          Bool.false_eq_true, List.length_cons] <;> omega

theorem length_filter_lt {p q : Nat → Bool} :
    ∀ l : List Nat, (∀ a ∈ l, q a = true → p a = true) →
      ∀ a ∈ l, p a = true → q a = false →
      (l.filter q).length < (l.filter p).length := by
  intro l
  induction l with
  | nil => intro _ a ha; cases ha
  | cons x xs ih =>
    intro h a ha hpa hqa
    have hxs : ∀ b ∈ xs, q b = true → p b = true :=
      fun b hb hqb => h b (List.mem_cons_of_mem _ hb) hqb
    rcases List.mem_cons.mp ha with rfl | ha2
    · have hmono := length_filter_mono xs hxs
      simp only [List.filter_cons, hqa, hpa, if_true, Bool.false_eq_true,
        if_false, List.length_cons]
      omega
    · by_cases hq : q x = true
      · have hp := h x (List.mem_cons_self _ _) hq
        have := ih hxs a ha2 hpa hqa
        simp only [List.filter_cons, hq, hp, if_true, List.length_cons]
        omega
      · by_cases hp : p x = true
        · have hmono := length_filter_mono xs hxs
          simp only [List.filter_cons, hq, hp, if_true, Bool.false_eq_true,
            if_false, List.length_cons]
          omega
        · have := ih hxs a ha2 hpa hqa
          simp only [List.filter_cons, hq, hp, Bool.false_eq_true, if_false]
          omega

theorem incomplete_applyDispatch (d : Nat → Bool) (batch : List Nat)
    (sigma : Nat → GStatus) (ids : List Nat) :
    incompleteOf ids (applyDispatch d batch sigma) =
      ids.filter (fun t => !(batch.contains t) && !(isTerminal (sigma t))) := by
  unfold incompleteOf
  apply List.filter_congr
  intro t _
  by_cases hb : batch.contains t
  · simp only [applyDispatch, hb, if_true, Bool.not_true, Bool.false_and]
    cases d t <;> rfl
  · have hb2 : t ∉ batch := by simpa using hb
    have hbf : batch.contains t = false := by simpa using hb
    simp [applyDispatch, hb2, hbf]

theorem measure_decreases (D : Nat → List Nat) (d : Nat → Bool)
    (ids : List Nat) (sigma : Nat → GStatus)
    (hne : runnableOf D ids sigma ≠ []) :
    (incompleteOf ids (applyDispatch d (runnableOf D ids sigma) sigma)).length <
      (incompleteOf ids sigma).length := by
  rw [incomplete_applyDispatch]
  obtain ⟨r, hr⟩ := List.exists_mem_of_ne_nil _ hne
  have hrinc := List.mem_filter.mp hr
  have hrid := List.mem_filter.mp hrinc.1
  unfold incompleteOf
  refine length_filter_lt ids ?_ r hrid.1 hrid.2 ?_
  · intro a _ hq
    exact (Bool.and_eq_true_iff.mp hq).2
  · have hc : (runnableOf D ids sigma).contains r = true := List.elem_iff.mpr hr
    simp only [hc, Bool.not_true, Bool.false_and]

/-- Soundness predicate for a `run_plan` outcome relative to the starting
table: the loop did not run out of fuel; success means every working-set
task is terminal; a stall means the runnable set is empty, some working-set
task is non-terminal, none is `in_progress`, and statuses only moved
towards terminal values. -/
def RunGood (D : Nat → List Nat) (ids : List Nat) (sigma0 : Nat → GStatus) :
    RunOutcome → Prop
  | RunOutcome.outOfFuel _ _ => False
  | RunOutcome.success s _ =>
      (∀ t ∈ ids, isTerminal (s t) = true) ∧ Preserves sigma0 s
  | RunOutcome.stall s _ =>
      runnableOf D ids s = [] ∧ (∃ t ∈ ids, isTerminal (s t) = false) ∧
      (∀ t ∈ ids, s t ≠ GStatus.in_progress) ∧ Preserves sigma0 s

theorem runGood_preserves {D : Nat → List Nat} {ids : List Nat}
    {s0 s1 : Nat → GStatus} {out : RunOutcome} (h01 : Preserves s0 s1)
    (h : RunGood D ids s1 out) : RunGood D ids s0 out := by
  cases out with
  | outOfFuel s l => exact h
  | success s l => exact ⟨h.1, preserves_trans h01 h.2⟩
  | stall s l => exact ⟨h.1, h.2.1, h.2.2.1, preserves_trans h01 h.2.2.2⟩

theorem runningOf_eq_nil (ids : List Nat) (sigma : Nat → GStatus)
    (h : ∀ t ∈ ids, sigma t ≠ GStatus.in_progress) :
    runningOf ids sigma = [] := by
  unfold runningOf
  rw [List.filter_eq_nil_iff]
  intro t ht
  have htid := (List.mem_filter.mp ht).1
  simp [h t htid]

theorem run_plan_sound (D : Nat → List Nat) (d : Nat → Bool) (ids : List Nat) :
    ∀ (fuel : Nat) (sigma : Nat → GStatus) (log : List Nat),
      (∀ t ∈ ids, sigma t ≠ GStatus.in_progress) →
      (incompleteOf ids sigma).length < fuel →
      RunGood D ids sigma (run_plan D d ids fuel sigma log) := by
  intro fuel
  induction fuel with
  | zero => intro sigma log _ hm; omega
  | succ n ih =>
    intro sigma log hinv hm
    by_cases h1 : incompleteOf ids sigma = []
    · simp only [run_plan, h1, if_true, if_pos]
      refine ⟨?_, preserves_self sigma⟩
      intro t ht
      by_contra hnt
      have : t ∈ incompleteOf ids sigma := by
        apply List.mem_filter.mpr
        exact ⟨ht, by simp [Bool.eq_false_iff.mpr hnt]⟩
      simp [h1] at this
    · by_cases h2 : runnableOf D ids sigma = []
      · have h3 : runningOf ids sigma = [] := runningOf_eq_nil ids sigma hinv
        simp only [run_plan, h1, h2, h3, if_true, if_false, if_pos, if_neg,
          not_false_iff]
        obtain ⟨t, ht⟩ := List.exists_mem_of_ne_nil _ h1
        have htm := List.mem_filter.mp ht
        refine ⟨h2, ⟨t, htm.1, by simpa using htm.2⟩, hinv, preserves_self sigma⟩
      · have hmd := measure_decreases D d ids sigma h2
        have hinv2 : ∀ t ∈ ids,
            applyDispatch d (runnableOf D ids sigma) sigma t ≠ GStatus.in_progress :=
          fun t ht => applyDispatch_no_inprogress d _ sigma t (hinv t ht)
        have hrec := ih (applyDispatch d (runnableOf D ids sigma) sigma)
          (log ++ runnableOf D ids sigma) hinv2 (by omega)
        simp only [run_plan, h1, h2, if_false, if_neg, not_false_iff]
        exact runGood_preserves (applyDispatch_preserves d _ sigma) hrec

/-- Claim C2 amended: provided no task of the working set starts out
`in_progress` (within a single sequential run nothing else puts the loop to
indefinite sleep), `run_plan` with fuel `|ids| + 1` always halts without
exhausting its fuel: with success exactly when every task is terminal, and
otherwise with a declared stall at a state where the runnable set is empty,
some tasks remain non-terminal, none is `in_progress`, and every remaining
non-terminal task still holds its original status. -/
theorem run_plan_terminates_or_stalls (D : Nat → List Nat) (d : Nat → Bool)
    (ids : List Nat) (sigma : Nat → GStatus)
    (hinv : ∀ t ∈ ids, sigma t ≠ GStatus.in_progress) :
    ((run_plan D d ids (ids.length + 1) sigma []).isOutOfFuel = false) ∧
    ((run_plan D d ids (ids.length + 1) sigma []).isSuccess = true →
      ∀ t ∈ ids,
        isTerminal ((run_plan D d ids (ids.length + 1) sigma []).finalStatus t)
          = true) ∧
    ((run_plan D d ids (ids.length + 1) sigma []).isStall = true →
      runnableOf D ids ((run_plan D d ids (ids.length + 1) sigma []).finalStatus)
        = [] ∧
      (∃ t ∈ ids,
        isTerminal ((run_plan D d ids (ids.length + 1) sigma []).finalStatus t)
          = false) ∧
      (∀ t ∈ ids,
        (run_plan D d ids (ids.length + 1) sigma []).finalStatus t
          ≠ GStatus.in_progress) ∧
      (∀ t ∈ ids,
        isTerminal ((run_plan D d ids (ids.length + 1) sigma []).finalStatus t)
          = false →
        (run_plan D d ids (ids.length + 1) sigma []).finalStatus t = sigma t)) := by
  have hfuel : (incompleteOf ids sigma).length < ids.length + 1 := by
    have := List.length_filter_le (fun t => !(isTerminal (sigma t))) ids
    simpa [incompleteOf, Nat.lt_succ_iff] using this
  have hgood := run_plan_sound D d ids (ids.length + 1) sigma [] hinv hfuel
  rcases hout : run_plan D d ids (ids.length + 1) sigma [] with ⟨s, l⟩ | ⟨s, l⟩ | ⟨s, l⟩ <;>
    rw [hout] at hgood
  · refine ⟨rfl, ?_, ?_⟩
    · intro _
      exact hgood.1
    · intro h
      exact Bool.noConfusion h
  · refine ⟨rfl, ?_, ?_⟩
    · intro h
      exact Bool.noConfusion h
    · intro _
      refine ⟨hgood.1, hgood.2.1, hgood.2.2.1, ?_⟩
      intro t _ hnt
      rcases hgood.2.2.2 t with h | h
      · exact h
      · simp only [RunOutcome.finalStatus] at hnt
        rw [hnt] at h
        exact Bool.noConfusion h
  · exact absurd hgood (by simp [RunGood])

/-- Witness for the amended C2 theorem: a two-task chain of fresh `todo`
tasks runs to an outcome without exhausting the fuel bound. -/
theorem run_plan_terminates_or_stalls_witness :
    (∀ t ∈ ([0, 1] : List Nat),
      (fun _ => GStatus.todo) t ≠ GStatus.in_progress) ∧
    ((run_plan (fun t => if t = 1 then [0] else []) (fun _ => true) [0, 1]
      (([0, 1] : List Nat).length + 1) (fun _ => GStatus.todo) []).isOutOfFuel
        = false) :=
  ⟨by decide,
   (run_plan_terminates_or_stalls (fun t => if t = 1 then [0] else [])
     (fun _ => true) [0, 1] (fun _ => GStatus.todo) (by decide)).1⟩

/-!
Claim C5: cron due semantics and the fire-once property of `* * * * *`.
-/

/-- An active `CronJob` row scheduled with `* * * * *`. -/
def everyMinuteJob (lr : Option Nat) : CronJobRow :=
  { cron := Except.ok everyMinute, last_run_at := lr, is_active := true }

theorem sr_everyMinute_none_boundary (m : Nat) (hm : 1 ≤ m) :
    should_run_now (Except.ok everyMinute) none (60 * m) = false := by
  have h : 60 * m % 60 = 0 := by omega
  simp only [should_run_now, everyMinute, h, if_pos, decide_eq_false_iff_not,
    not_lt]
  omega

theorem sr_everyMinute_none_interior (m t : Nat) (h1 : 60 * m < t)
    (h2 : t < 60 * m + 60) :
    should_run_now (Except.ok everyMinute) none t = true := by
  have hmod : ¬ t % 60 = 0 := by omega
  have hdiv : t / 60 * 60 = 60 * m := by omega
  simp only [should_run_now, everyMinute, hmod, if_neg, if_false, hdiv,
    decide_eq_true_iff]
  omega

theorem sr_everyMinute_some_before (m l t : Nat) (hl : l < 60 * m)
    (ht : 60 * m ≤ t) :
    should_run_now (Except.ok everyMinute) (some l) t = true := by
  simp only [should_run_now, everyMinute, decide_eq_true_iff]
  omega

theorem sr_everyMinute_some_inwindow (m u t : Nat) (hu : 60 * m ≤ u)
    (ht : t < 60 * m + 60) :
    should_run_now (Except.ok everyMinute) (some u) t = false := by
  simp only [should_run_now, everyMinute, decide_eq_false_iff_not, not_le]
  omega

theorem runTicks_no_fire (execOk : Nat → Bool) (m u : Nat) (hu : 60 * m ≤ u) :
    ∀ ticks : List Nat, (∀ t ∈ ticks, t < 60 * m + 60) →
      runTicks execOk ticks (everyMinuteJob (some u)) =
        (everyMinuteJob (some u), []) := by
  intro ticks
  induction ticks with
  | nil => intro _; rfl
  | cons t rest ih =>
    intro hwin
    have hsr := sr_everyMinute_some_inwindow m u t hu
      (hwin t (List.mem_cons_self _ _))
    have hrest := ih (fun x hx => hwin x (List.mem_cons_of_mem _ hx))
    simp [runTicks, tickJob, everyMinuteJob, hsr] at hrest ⊢
    exact hrest

theorem fire_once_aux (execOk : Nat → Bool) (m : Nat) (hm : 1 ≤ m) :
    ∀ (ticks : List Nat) (lr : Option Nat),
      (∀ t ∈ ticks, 60 * m ≤ t ∧ t < 60 * m + 60) →
      (∀ t ∈ ticks, execOk t = true) →
      (lr = none ∨ ∃ l, lr = some l ∧ l < 60 * m) →
      (∃ t ∈ ticks, 60 * m < t) →
      (runTicks execOk ticks (everyMinuteJob lr)).2.length = 1 := by
  intro ticks
  induction ticks with
  | nil =>
    intro lr _ _ _ hex
    rcases hex with ⟨t, ht, _⟩
    cases ht
  | cons t rest ih =>
    intro lr hwin hexec hlr hex
    have hwt := hwin t (List.mem_cons_self _ _)
    have hwrest : ∀ x ∈ rest, x < 60 * m + 60 :=
      fun x hx => (hwin x (List.mem_cons_of_mem _ hx)).2
    rcases hlr with rfl | ⟨l, rfl, hl⟩
    · by_cases hbt : 60 * m < t
      · have hsr := sr_everyMinute_none_interior m t hbt hwt.2
        have hok := hexec t (List.mem_cons_self _ _)
        have hnf := runTicks_no_fire execOk m t hwt.1 rest hwrest
        simp [runTicks, tickJob, everyMinuteJob, hsr, hok] at hnf ⊢
        simp [hnf]
      · have hteq : t = 60 * m := by omega
        subst hteq
        have hsr := sr_everyMinute_none_boundary m hm
        rcases hex with ⟨t0, ht0, hgt⟩
        have ht0r : t0 ∈ rest := by
          rcases List.mem_cons.mp ht0 with rfl | h
          · omega
          · exact h
        have hrec := ih none (fun x hx => hwin x (List.mem_cons_of_mem _ hx))
          (fun x hx => hexec x (List.mem_cons_of_mem _ hx)) (Or.inl rfl)
          ⟨t0, ht0r, hgt⟩
        simp [runTicks, tickJob, everyMinuteJob, hsr] at hrec ⊢
        exact hrec
    · have hsr := sr_everyMinute_some_before m l t hl hwt.1
      have hok := hexec t (List.mem_cons_self _ _)
      have hnf := runTicks_no_fire execOk m t hwt.1 rest hwrest
      simp [runTicks, tickJob, everyMinuteJob, hsr, hok] at hnf ⊢
      simp [hnf]

/-- Claim C5: for a previously run job, `_should_run_now` is `true` exactly
when some scheduled occurrence lies strictly after `last_run` and at or
before `now` (equivalently, the most recent occurrence strictly after
`last_run` has arrived); for a never-run job it is `true` exactly when a
scheduled occurrence (in particular the most recent one before `now`) falls
within the last 60 seconds; and a `* * * * *` job ticked repeatedly inside
one wall-clock minute — starting the minute never-run or last run before the
minute — fires exactly once.  The croniter oracle hypotheses say that
`get_next`/`get_prev` return the least occurrence after, resp. the greatest
occurrence before, their base point. -/
theorem cron_due_semantics_and_fire_once :
    (∀ (occ : Nat → Prop) (c : Croniter) (lr now n : Nat),
      c.get_next lr = Except.ok n → occ n → lr < n →
      (∀ k, occ k → lr < k → n ≤ k) →
      (should_run_now (Except.ok c) (some lr) now = true ↔
        ∃ t, occ t ∧ lr < t ∧ t ≤ now)) ∧
    (∀ (occ : Nat → Prop) (c : Croniter) (now p : Nat),
      c.get_prev now = Except.ok p → occ p → p < now →
      (∀ k, occ k → k < now → k ≤ p) →
      (should_run_now (Except.ok c) none now = true ↔
        ∃ t, occ t ∧ t < now ∧ now - t < 60)) ∧
    (∀ (execOk : Nat → Bool) (m : Nat) (ticks : List Nat) (lr : Option Nat),
      1 ≤ m →
      (∀ t ∈ ticks, 60 * m ≤ t ∧ t < 60 * m + 60) →
      (∀ t ∈ ticks, execOk t = true) →
      (lr = none ∨ ∃ l, lr = some l ∧ l < 60 * m) →
      (∃ t ∈ ticks, 60 * m < t) →
      (runTicks execOk ticks (everyMinuteJob lr)).2.length = 1) := by
  refine ⟨?_, ?_, ?_⟩
  · intro occ c lr now n hn hocc hlt hleast
    simp only [should_run_now, hn, decide_eq_true_iff]
    constructor
    · intro h
      exact ⟨n, hocc, hlt, h⟩
    · rintro ⟨t, hocct, hltt, hle⟩
      exact le_trans (hleast t hocct hltt) hle
  · intro occ c now p hp hocc hlt hgreatest
    simp only [should_run_now, hp, decide_eq_true_iff]
    constructor
    · intro h
      exact ⟨p, hocc, hlt, h⟩
    · rintro ⟨t, hocct, htlt, hwin⟩
      have := hgreatest t hocct htlt
      omega
  · intro execOk m ticks lr hm hwin hexec hlr hex
    exact fire_once_aux execOk m hm ticks lr hwin hexec hlr hex

/-- Witness for the C5 theorem: the `* * * * *` occurrence set (multiples of
60) at concrete times, and two ticks inside minute 2 of which the second
fires. -/
theorem cron_due_semantics_and_fire_once_witness :
    (should_run_now (Except.ok everyMinute) (some 100) 130 = true ↔
      ∃ t, t % 60 = 0 ∧ 100 < t ∧ t ≤ 130) ∧
    (should_run_now (Except.ok everyMinute) none 130 = true ↔
      ∃ t, t % 60 = 0 ∧ t < 130 ∧ 130 - t < 60) ∧
    (runTicks (fun _ => true) [120, 145] (everyMinuteJob none)).2.length = 1 :=
  ⟨cron_due_semantics_and_fire_once.1 (fun t => t % 60 = 0) everyMinute 100 130
      120 rfl (by decide) (by decide) (fun k hk hl => by omega),
   cron_due_semantics_and_fire_once.2.1 (fun t => t % 60 = 0) everyMinute 130
      120 rfl (by decide) (by decide) (fun k hk hl => by omega),
   cron_due_semantics_and_fire_once.2.2 (fun _ => true) 2 [120, 145] none
      (by decide) (by decide) (by decide) (Or.inl rfl)
      ⟨145, by decide, by decide⟩⟩
